import Mathlib

/-!
Verification of the NO3SYS curvature-gated selection and self-evolution core.

Shallow embedding of `no3sys/core/fork.py`, `no3sys/core/curvature.py`,
`no3sys/core/validator.py` and `no3sys/core/infini_gen.py`.

Numeric values are modelled as exact rationals (`ℚ`); the Euclidean
distances used by the contextual-divergence gradients are modelled over `ℝ`
(they involve square roots).  Randomness (`numpy.random`) is modelled by
injected inputs: the candidate parameter names drawn from the mutable
whitelist, and per-name perturbation / expected-improvement draws, each
constrained by hypotheses matching the distribution supports used in the
source (`rng.integers(-1, 2)` lands in {-1,0,1}, `rng.uniform(0, x)` lands
in [0, x)).
-/

namespace NO3SYS

/-- Clamp `x` into `[lo, hi]`, mirroring `numpy.clip` (lower bound applied
first, then the upper bound). -/
def clampVal {α : Type} [LinearOrder α] (x lo hi : α) : α :=
  min (max x lo) hi

/-- `AffectiveState` from `fork.py`: the 5-dimensional affective field
projection with its source default values. -/
structure AffectiveState where
  trust : ℚ := 1/2
  fear : ℚ := 1/10
  urgency : ℚ := 3/10
  satisfaction : ℚ := 3/5
  frustration : ℚ := 1/10
deriving DecidableEq

/-- `PredictiveVector` from `fork.py`: the 4-dimensional predictive field
projection with its source default values. -/
structure PredictiveVector where
  risk : ℚ := 1/5
  reward : ℚ := 7/10
  volatility : ℚ := 3/10
  stability : ℚ := 4/5
deriving DecidableEq

/-- The numeric payload of a `Fork` from `fork.py` (the fields used by
scoring, gating, curvature and validation; identity strings and metadata
carry no numeric behaviour). -/
structure Fork where
  affective_state : AffectiveState := {}
  predictive_vector : PredictiveVector := {}
  confidence : ℚ := 1/2
  curvature : ℚ := 0
deriving DecidableEq

/-- `Fork.score` from `fork.py`. -/
def Fork.score (f : Fork) : ℚ :=
  let affect_score := (f.affective_state.trust + f.affective_state.satisfaction
    - f.affective_state.fear - f.affective_state.frustration) / 4
  let predict_score := (f.predictive_vector.reward + f.predictive_vector.stability
    - f.predictive_vector.risk - f.predictive_vector.volatility) / 4
  let curvature_penalty := f.curvature * (3/10)
  f.confidence + affect_score * (3/10) + predict_score * (3/10) - curvature_penalty

/-- `ethical_gate` from `curvature.py`: true iff the fork's curvature is
strictly below the threshold. -/
def ethical_gate (f : Fork) (kappa_max : ℚ) : Bool :=
  f.curvature < kappa_max

/-- Left fold keeping the incumbent unless the challenger is strictly
better on `key`: the semantics of Python's `max(xs, key=key)` (the first
element attaining the maximum wins) applied to `x :: xs`. -/
def foldBest (key : Fork → ℚ) (x : Fork) (xs : List Fork) : Fork :=
  xs.foldl (fun b y => if key b < key y then y else b) x

/-- `select_best_fork` from `curvature.py`.  `none` models the
`ValueError` Python's `min`/`max` raise on an empty input.  Python's
`min(forks, key=curvature)` is the first minimiser, i.e. the first
maximiser of the negated key. -/
def select_best_fork (forks : List Fork) (kappa_max : ℚ) : Option Fork :=
  match forks with
  | [] => none
  | f :: fs =>
      match (f :: fs).filter (fun g => ethical_gate g kappa_max) with
      | [] => some (foldBest (fun g => -g.curvature) f fs)
      | g :: gs => some (foldBest Fork.score g gs)

/-- Euclidean distance between two affective 5-vectors
(`np.linalg.norm(a - b)` on the `AffectiveState.to_vector` order). -/
noncomputable def affectDist (a b : AffectiveState) : ℝ :=
  Real.sqrt (((a.trust : ℝ) - b.trust) ^ 2 + ((a.fear : ℝ) - b.fear) ^ 2 +
    ((a.urgency : ℝ) - b.urgency) ^ 2 + ((a.satisfaction : ℝ) - b.satisfaction) ^ 2 +
    ((a.frustration : ℝ) - b.frustration) ^ 2)

/-- Euclidean distance between two predictive 4-vectors. -/
noncomputable def predictDist (a b : PredictiveVector) : ℝ :=
  Real.sqrt (((a.risk : ℝ) - b.risk) ^ 2 + ((a.reward : ℝ) - b.reward) ^ 2 +
    ((a.volatility : ℝ) - b.volatility) ^ 2 + ((a.stability : ℝ) - b.stability) ^ 2)

/-- `compute_affective_gradient` from `curvature.py`: mean distance over
consecutive pairs (index `i` vs `i+1`), zero for fewer than two forks. -/
noncomputable def compute_affective_gradient (forks : List Fork) : ℝ :=
  if forks.length < 2 then 0
  else
    let diffs := (forks.zip forks.tail).map
      (fun q => affectDist q.1.affective_state q.2.affective_state)
    if diffs.isEmpty then 0 else diffs.sum / diffs.length

/-- `compute_predictive_gradient` from `curvature.py`. -/
noncomputable def compute_predictive_gradient (forks : List Fork) : ℝ :=
  if forks.length < 2 then 0
  else
    let diffs := (forks.zip forks.tail).map
      (fun q => predictDist q.1.predictive_vector q.2.predictive_vector)
    if diffs.isEmpty then 0 else diffs.sum / diffs.length

/-- The internal-tension term of `compute_fork_curvature` from
`curvature.py`. -/
noncomputable def internalTension (fork : Fork) : ℝ :=
  |(fork.affective_state.fear : ℝ) - (1 - (fork.predictive_vector.reward : ℝ))| * (3/10) +
  |(fork.affective_state.trust : ℝ) - (1 - (fork.predictive_vector.risk : ℝ))| * (3/10) +
  |(fork.affective_state.frustration : ℝ) - (1 - (fork.confidence : ℝ))| * (1/5) +
  (fork.predictive_vector.volatility : ℝ) * (fork.affective_state.urgency : ℝ) * (1/5)

/-- `compute_fork_curvature` from `curvature.py`: internal tension plus
0.1 times the contextual divergence (the two gradients over
`[fork] + context_forks`, computed only when the context is non-empty),
clipped to `[0, 2]`. -/
noncomputable def compute_fork_curvature (fork : Fork) (context_forks : List Fork) : ℝ :=
  let contextual_divergence :=
    if context_forks.isEmpty then 0
    else compute_affective_gradient (fork :: context_forks) +
      compute_predictive_gradient (fork :: context_forks)
  clampVal (internalTension fork + contextual_divergence * (1/10)) 0 2

/-- The contextual divergence exactly as the spec words it: the mean
Euclidean distance between consecutive affect vectors of
`[fork] + context_forks` plus the same mean over consecutive predictive
vectors, with no guard (an empty mean is `0/0 = 0`). -/
noncomputable def specContextualDivergence (fork : Fork) (context_forks : List Fork) : ℝ :=
  let l := fork :: context_forks
  let affDiffs := (l.zip l.tail).map (fun q => affectDist q.1.affective_state q.2.affective_state)
  let predDiffs := (l.zip l.tail).map (fun q => predictDist q.1.predictive_vector q.2.predictive_vector)
  affDiffs.sum / affDiffs.length + predDiffs.sum / predDiffs.length

/-- The per-validation delta map produced by `validate_fork` in
`validator.py`. -/
structure ValidationDelta where
  risk_error : ℚ
  reward_error : ℚ
  sentiment_accuracy : ℚ
deriving DecidableEq

/-- The `actual_outcome` dict consumed by `validate_fork`; `none` models a
missing key. -/
structure ActualOutcome where
  risk : Option ℚ := none
  reward : Option ℚ := none
  sentiment_quality : Option ℚ := none
deriving DecidableEq

/-- `ValidationRecord` from `fork.py` (numeric payload). -/
structure ValidationRecord where
  validated : Bool := false
  delta : Option ValidationDelta := none
deriving DecidableEq

/-- `TemporalValidator.validate_fork` from `validator.py`: missing `risk`
and `reward` keys default to the fork's own prediction, a missing
`sentiment_quality` key defaults to the constant `0.7`. -/
def validate_fork (fork : Fork) (actual_outcome : ActualOutcome) : ValidationRecord :=
  let predicted_risk := fork.predictive_vector.risk
  let predicted_reward := fork.predictive_vector.reward
  let actual_risk := actual_outcome.risk.getD predicted_risk
  let actual_reward := actual_outcome.reward.getD predicted_reward
  let risk_error := actual_risk - predicted_risk
  let reward_error := actual_reward - predicted_reward
  let actual_sentiment := actual_outcome.sentiment_quality.getD (7/10)
  let predicted_sentiment := (fork.affective_state.trust + fork.affective_state.satisfaction) / 2
  let sentiment_accuracy := 1 - |actual_sentiment - predicted_sentiment|
  { validated := true,
    delta := some { risk_error := risk_error, reward_error := reward_error,
                    sentiment_accuracy := sentiment_accuracy } }

/-- `CognitiveParameters` from `infini_gen.py` with its source default
values (the two integer-typed fields are integer-valued rationals here). -/
structure CognitiveParameters where
  deductive_weight : ℚ := 2/5
  inductive_weight : ℚ := 7/20
  abductive_weight : ℚ := 1/4
  vector_search_weight : ℚ := 3/5
  graph_search_weight : ℚ := 2/5
  trust_weight : ℚ := 3/10
  fear_weight : ℚ := 1/5
  urgency_weight : ℚ := 3/20
  satisfaction_weight : ℚ := 1/4
  frustration_weight : ℚ := 1/10
  forecast_horizon : ℚ := 5
  risk_tolerance : ℚ := 3/10
  fork_depth : ℚ := 3
  kappa_max : ℚ := 4/5
  alpha : ℚ := 1/100
deriving DecidableEq

/-- `CognitiveParameters.normalize_reasoning_weights`: divides the three
reasoning weights by their total when the total is positive, otherwise a
no-op. -/
def normalize_reasoning_weights (p : CognitiveParameters) : CognitiveParameters :=
  if 0 < p.deductive_weight + p.inductive_weight + p.abductive_weight then
    { p with
      deductive_weight := p.deductive_weight /
        (p.deductive_weight + p.inductive_weight + p.abductive_weight),
      inductive_weight := p.inductive_weight /
        (p.deductive_weight + p.inductive_weight + p.abductive_weight),
      abductive_weight := p.abductive_weight /
        (p.deductive_weight + p.inductive_weight + p.abductive_weight) }
  else p

/-- `CognitiveParameters.normalize_retrieval_weights`. -/
def normalize_retrieval_weights (p : CognitiveParameters) : CognitiveParameters :=
  if 0 < p.vector_search_weight + p.graph_search_weight then
    { p with
      vector_search_weight := p.vector_search_weight /
        (p.vector_search_weight + p.graph_search_weight),
      graph_search_weight := p.graph_search_weight /
        (p.vector_search_weight + p.graph_search_weight) }
  else p

/-- The field names of `CognitiveParameters`, for the stringly-typed
`getattr`/`setattr` access used by `InfiniGen`. -/
inductive ParamName where
  | deductive_weight | inductive_weight | abductive_weight
  | vector_search_weight | graph_search_weight
  | trust_weight | fear_weight | urgency_weight
  | satisfaction_weight | frustration_weight
  | risk_tolerance | alpha | fork_depth | forecast_horizon
  | kappa_max
deriving DecidableEq, Fintype

/-- `getattr(params, name)`. -/
def getParam (p : CognitiveParameters) : ParamName → ℚ
  | .deductive_weight => p.deductive_weight
  | .inductive_weight => p.inductive_weight
  | .abductive_weight => p.abductive_weight
  | .vector_search_weight => p.vector_search_weight
  | .graph_search_weight => p.graph_search_weight
  | .trust_weight => p.trust_weight
  | .fear_weight => p.fear_weight
  | .urgency_weight => p.urgency_weight
  | .satisfaction_weight => p.satisfaction_weight
  | .frustration_weight => p.frustration_weight
  | .risk_tolerance => p.risk_tolerance
  | .alpha => p.alpha
  | .fork_depth => p.fork_depth
  | .forecast_horizon => p.forecast_horizon
  | .kappa_max => p.kappa_max

/-- `setattr(params, name, v)`. -/
def setParam (p : CognitiveParameters) (n : ParamName) (v : ℚ) : CognitiveParameters :=
  match n with
  | .deductive_weight => { p with deductive_weight := v }
  | .inductive_weight => { p with inductive_weight := v }
  | .abductive_weight => { p with abductive_weight := v }
  | .vector_search_weight => { p with vector_search_weight := v }
  | .graph_search_weight => { p with graph_search_weight := v }
  | .trust_weight => { p with trust_weight := v }
  | .fear_weight => { p with fear_weight := v }
  | .urgency_weight => { p with urgency_weight := v }
  | .satisfaction_weight => { p with satisfaction_weight := v }
  | .frustration_weight => { p with frustration_weight := v }
  | .risk_tolerance => { p with risk_tolerance := v }
  | .alpha => { p with alpha := v }
  | .fork_depth => { p with fork_depth := v }
  | .forecast_horizon => { p with forecast_horizon := v }
  | .kappa_max => { p with kappa_max := v }

/-- `InfiniGen._mutable_params`: the safety whitelist of mutable parameter
names (every field except `kappa_max`). -/
def mutableParams : List ParamName :=
  [.deductive_weight, .inductive_weight, .abductive_weight,
   .vector_search_weight, .graph_search_weight,
   .trust_weight, .fear_weight, .urgency_weight,
   .satisfaction_weight, .frustration_weight,
   .risk_tolerance, .alpha, .fork_depth, .forecast_horizon]

/-- Which parameters hold Python `int` values (`isinstance(val, int)` in
`hypothesize`). -/
def isIntParam : ParamName → Bool
  | .fork_depth => true
  | .forecast_horizon => true
  | _ => false

/-- A mutation candidate `(parameter_name, new_value, expected_improvement)`. -/
abbrev Candidate := ParamName × ℚ × ℚ

/-- `EvolutionRecord` from `infini_gen.py` (without the wall-clock
timestamp). -/
structure EvolutionRecord where
  generation : ℕ
  mutation_type : String
  parameter_changed : ParamName
  old_value : ℚ
  new_value : ℚ
  expected_improvement : ℚ
  actual_improvement : Option ℚ := none
  accepted : Bool := true
deriving DecidableEq

/-- The optional `delta` dict carried by a fork-outcome record; `none`
models a missing key (defaults applied by `observe`). -/
structure DeltaFields where
  sentiment_accuracy : Option ℚ := none
  risk_error : Option ℚ := none
  reward_error : Option ℚ := none
deriving DecidableEq

/-- One element of the `fork_outcomes` list consumed by
`InfiniGen.observe`. -/
structure ForkOutcome where
  validated : Bool := false
  delta : Option DeltaFields := none
deriving DecidableEq

/-- The per-record score computed inside `InfiniGen.observe`:
`accuracy - (|risk_error| + |reward_error|) * 0.5` with the source's
defaults for missing keys. -/
def outcomeScore (o : ForkOutcome) : ℚ :=
  let d := o.delta.getD {}
  let accuracy := d.sentiment_accuracy.getD (1/2)
  let risk_error := |d.risk_error.getD 0|
  let reward_error := |d.reward_error.getD 0|
  accuracy - (risk_error + reward_error) * (1/2)

/-- `InfiniGen.observe`: mean score over validated records, falling back
to the supplied performance baseline when the input is empty or holds no
validated record. -/
def observe (fork_outcomes : List ForkOutcome) (baseline : ℚ) : ℚ :=
  if fork_outcomes.isEmpty then baseline
  else if (fork_outcomes.foldl
      (fun acc o => if o.validated then acc ++ [outcomeScore o] else acc) []).isEmpty then
    baseline
  else
    (fork_outcomes.foldl
      (fun acc o => if o.validated then acc ++ [outcomeScore o] else acc) []).sum /
    (fork_outcomes.foldl
      (fun acc o => if o.validated then acc ++ [outcomeScore o] else acc) []).length

/-- `InfiniGen.hypothesize` with the random draws injected: `noise n` is
the additive perturbation drawn for parameter `n` (Gaussian for floats,
`rng.integers(-1, 2)` for ints) and `imp n` its expected-improvement
draw.  `names` is the (arbitrary-order) slice `list(self._mutable_params)[:5]`. -/
def hypothesize (p : CognitiveParameters) (names : List ParamName)
    (noise imp : ParamName → ℚ) : List Candidate :=
  names.map fun n =>
    if isIntParam n then
      (n, max 1 (getParam p n + noise n), imp n)
    else
      (n, clampVal (getParam p n + noise n) (1/100) 1, imp n)

/-- `InfiniGen._compute_mutation_curvature`: the closed-form projected
curvature heuristic, clipped to `[0, 2]`. -/
def compute_mutation_curvature (p : CognitiveParameters) : ℚ :=
  clampVal (p.risk_tolerance * (1 - p.fear_weight) * (2/5) +
    (1 - p.deductive_weight) * (3/10) +
    p.alpha * 2 * (3/10)) 0 2

/-- One iteration of the candidate loop in `InfiniGen.evolve`: reject (and
log) a candidate whose trial configuration has projected curvature
`≥ kappa_max`, otherwise keep it as incumbent when its expected
improvement is strictly higher than the incumbent's. -/
def mutationStep (p : CognitiveParameters) (kappa : ℚ) (gen : ℕ)
    (acc : (Option Candidate × ℚ) × List EvolutionRecord) (c : Candidate) :
    (Option Candidate × ℚ) × List EvolutionRecord :=
  if kappa ≤ compute_mutation_curvature (setParam p c.1 c.2.1) then
    (acc.1, acc.2 ++ [{ generation := gen, mutation_type := "rejected_curvature",
                        parameter_changed := c.1, old_value := getParam p c.1,
                        new_value := c.2.1, expected_improvement := c.2.2,
                        accepted := false }])
  else if acc.1.2 < c.2.2 then ((some c, c.2.2), acc.2)
  else acc

/-- The per-candidate loop of `InfiniGen.evolve` (initial incumbent: none,
with best improvement `0`). -/
def mutationLoop (p : CognitiveParameters) (kappa : ℚ) (gen : ℕ)
    (cands : List Candidate) : (Option Candidate × ℚ) × List EvolutionRecord :=
  cands.foldl (mutationStep p kappa gen) ((none, 0), [])

/-- The mutable state of an `InfiniGen` instance. -/
structure InfiniGenState where
  params : CognitiveParameters
  kappa_max : ℚ
  generation : ℕ
  history : List EvolutionRecord
  performance_baseline : ℚ
  rollback_stack : List CognitiveParameters
deriving DecidableEq

/-- `InfiniGen.__init__(params, kappa_max)`. -/
def initInfiniGen (params : CognitiveParameters) (kappa : ℚ) : InfiniGenState :=
  { params := params, kappa_max := kappa, generation := 0, history := [],
    performance_baseline := 1/2, rollback_stack := [] }

/-- `InfiniGen.evolve` with the random draws of `hypothesize` injected:
bumps the generation, computes performance via `observe`, pushes a
snapshot onto the (≤10, evict-oldest) rollback stack, gates each
candidate, deploys the best survivor (re-normalizing the weight groups)
and updates the baseline. -/
def evolve (s : InfiniGenState) (fork_outcomes : List ForkOutcome)
    (names : List ParamName) (noise imp : ParamName → ℚ) : InfiniGenState :=
  let gen := s.generation + 1
  let current_performance := observe fork_outcomes s.performance_baseline
  let pushed := s.rollback_stack ++ [s.params]
  let stack := if 10 < pushed.length then pushed.drop 1 else pushed
  let cands := hypothesize s.params names noise imp
  let result := mutationLoop s.params s.kappa_max gen cands
  match result.1.1 with
  | none =>
      { s with generation := gen, performance_baseline := current_performance,
               rollback_stack := stack, history := s.history ++ result.2 }
  | some c =>
      let newParams := normalize_retrieval_weights
        (normalize_reasoning_weights (setParam s.params c.1 c.2.1))
      { params := newParams, kappa_max := s.kappa_max, generation := gen,
        history := s.history ++ result.2 ++
          [{ generation := gen, mutation_type := "accepted",
             parameter_changed := c.1, old_value := getParam s.params c.1,
             new_value := c.2.1, expected_improvement := c.2.2,
             actual_improvement := some (result.1.2 - current_performance),
             accepted := true }],
        performance_baseline := current_performance, rollback_stack := stack }

/-- `InfiniGen.rollback`: pops the most recent snapshot (Python
`list.pop()`) and makes it live, returning it; `(s, none)` models the
fall-through `return None` on an empty stack. -/
def rollback (s : InfiniGenState) : InfiniGenState × Option CognitiveParameters :=
  match s.rollback_stack.getLast? with
  | none => (s, none)
  | some p => ({ s with params := p, rollback_stack := s.rollback_stack.dropLast }, some p)

/-- One externally-triggered controller transition. -/
inductive ControllerStep where
  | evolveStep : List ForkOutcome → List ParamName → (ParamName → ℚ) → (ParamName → ℚ) → ControllerStep
  | rollbackStep : ControllerStep

/-- Run a sequence of `evolve`/`rollback` calls against a controller
state. -/
def runSteps (s : InfiniGenState) : List ControllerStep → InfiniGenState
  | [] => s
  | ControllerStep.evolveStep o n ns im :: rest => runSteps (evolve s o n ns im) rest
  | ControllerStep.rollbackStep :: rest => runSteps (rollback s).1 rest

/-! Concrete sample values used by witnesses and counterexamples. -/

/-- A fork with curvature 0.3 (passes the default gate). -/
def forkLow : Fork := { curvature := 3/10 }

/-- A fork with curvature 0.9 (fails the default gate). -/
def forkHigh : Fork := { curvature := 9/10 }

/-- A fork predicting zero mean sentiment (trust = satisfaction = 0). -/
def forkZeroSent : Fork :=
  { affective_state := { trust := 0, satisfaction := 0 } }

/-- Parameters whose reasoning-weight total is zero, so
`normalize_reasoning_weights` is a no-op. -/
def zeroWeights : CognitiveParameters :=
  { deductive_weight := 0, inductive_weight := 0, abductive_weight := 0 }

/-- Parameters with a negative integer `fork_depth`. -/
def negDepthParams : CognitiveParameters := { fork_depth := -1 }

/-- A validated outcome record with a full delta. -/
def sampleOutcomes : List ForkOutcome :=
  [{ validated := true,
     delta := some { sentiment_accuracy := some (9/10),
                     risk_error := some (1/10), reward_error := some (-1/10) } }]

/-- A parameter configuration from which one gate-passing mutation of
`inductive_weight`, followed by the post-deployment re-normalization,
drives the projected curvature above the default `kappa_max = 0.8`. -/
def preEvolveParams : CognitiveParameters :=
  { deductive_weight := 1, inductive_weight := 1/100, abductive_weight := 1/100,
    fear_weight := 0, risk_tolerance := 1, alpha := 1/2 }

/-- The state after `evolve` deploys `inductive_weight := 1.0` from
`preEvolveParams` (candidate clamp: `0.01 + 2` clips to `1.0`). -/
def evolvedState : InfiniGenState :=
  evolve (initInfiniGen preEvolveParams (4/5)) []
    [ParamName.inductive_weight] (fun _ => 2) (fun _ => 1/20)

/-- A controller state whose rollback stack is full (10 snapshots). -/
def tenStackState : InfiniGenState :=
  { params := {}, kappa_max := 4/5, generation := 0, history := [],
    performance_baseline := 1/2, rollback_stack := List.replicate 10 {} }

/-! Helper lemmas. -/

theorem clampVal_le {α : Type} [LinearOrder α] (x lo hi : α) : clampVal x lo hi ≤ hi :=
  min_le_right _ _

theorem le_clampVal {α : Type} [LinearOrder α] (x lo hi : α) (h : lo ≤ hi) :
    lo ≤ clampVal x lo hi :=
  le_min (le_max_right _ _) h

theorem foldBest_le (key : Fork → ℚ) (x : Fork) (xs : List Fork) :
    ∀ z ∈ x :: xs, key z ≤ key (foldBest key x xs) := by
  induction xs generalizing x with
  | nil =>
      intro z hz
      rw [List.mem_singleton] at hz
      subst hz
      exact le_refl _
  | cons y ys ih =>
      intro z hz
      have hx : key x ≤ key (if key x < key y then y else x) := by
        by_cases h : key x < key y
        · simpa [h] using le_of_lt h
        · simp [h]
      have hy : key y ≤ key (if key x < key y then y else x) := by
        by_cases h : key x < key y
        · simp [h]
        · simpa [h] using le_of_not_lt h
      have hstep : foldBest key x (y :: ys) =
          foldBest key (if key x < key y then y else x) ys := rfl
      rw [hstep]
      rcases List.mem_cons.mp hz with rfl | hz'
      · exact hx.trans (ih _ _ (List.mem_cons_self _ _))
      · rcases List.mem_cons.mp hz' with rfl | hz''
        · exact hy.trans (ih _ _ (List.mem_cons_self _ _))
        · exact ih _ z (List.mem_cons_of_mem _ hz'')

theorem foldBest_split (key : Fork → ℚ) (x : Fork) (xs : List Fork) :
    ∃ l₁ l₂, x :: xs = l₁ ++ foldBest key x xs :: l₂ ∧
      ∀ z ∈ l₁, key z < key (foldBest key x xs) := by
  induction xs generalizing x with
  | nil => exact ⟨[], [], rfl, by simp⟩
  | cons y ys ih =>
      have hstep : foldBest key x (y :: ys) =
          foldBest key (if key x < key y then y else x) ys := rfl
      by_cases h : key x < key y
      · obtain ⟨l₁, l₂, heq, hlt⟩ := ih y
        rw [hstep, if_pos h]
        refine ⟨x :: l₁, l₂, ?_, ?_⟩
        · rw [List.cons_append, ← heq]
        · intro z hz
          rcases List.mem_cons.mp hz with rfl | hz'
          · exact h.trans_le (foldBest_le key y ys y (List.mem_cons_self _ _))
          · exact hlt z hz'
      · obtain ⟨l₁, l₂, heq, hlt⟩ := ih x
        rw [hstep, if_neg h]
        cases l₁ with
        | nil =>
            simp only [List.nil_append] at heq
            obtain ⟨hx, hl⟩ := List.cons.injEq .. ▸ heq
            refine ⟨[], y :: ys, ?_, by simp⟩
            rw [List.nil_append, ← hx]
        | cons a l₁' =>
            simp only [List.cons_append] at heq
            obtain ⟨hx, hys⟩ := List.cons.injEq .. ▸ heq
            subst hx
            refine ⟨x :: y :: l₁', l₂, ?_, ?_⟩
            · simp only [List.cons_append]
              rw [← hys]
            · intro z hz
              have hr : key x < key (foldBest key x ys) :=
                hlt x (List.mem_cons_self _ _)
              rcases List.mem_cons.mp hz with rfl | hz'
              · exact hr
              · rcases List.mem_cons.mp hz' with rfl | hz''
                · exact lt_of_le_of_lt (le_of_not_lt h) hr
                · exact hlt z (List.mem_cons_of_mem _ hz'')

theorem foldBest_mem (key : Fork → ℚ) (x : Fork) (xs : List Fork) :
    foldBest key x xs ∈ x :: xs := by
  obtain ⟨l₁, l₂, heq, -⟩ := foldBest_split key x xs
  rw [heq]
  exact List.mem_append_right _ (List.mem_cons_self _ _)

theorem select_best_fork_nil (k : ℚ) : select_best_fork [] k = none := rfl

theorem select_best_fork_fallback (f : Fork) (fs : List Fork) (k : ℚ)
    (h : (f :: fs).filter (fun g => ethical_gate g k) = []) :
    select_best_fork (f :: fs) k = some (foldBest (fun g => -g.curvature) f fs) := by
  have e : select_best_fork (f :: fs) k =
      match (f :: fs).filter (fun g => ethical_gate g k) with
      | [] => some (foldBest (fun g => -g.curvature) f fs)
      | g :: gs => some (foldBest Fork.score g gs) := rfl
  rw [e, h]

theorem select_best_fork_gated (f : Fork) (fs : List Fork) (g : Fork) (gs : List Fork)
    (k : ℚ) (h : (f :: fs).filter (fun g => ethical_gate g k) = g :: gs) :
    select_best_fork (f :: fs) k = some (foldBest Fork.score g gs) := by
  have e : select_best_fork (f :: fs) k =
      match (f :: fs).filter (fun g => ethical_gate g k) with
      | [] => some (foldBest (fun g => -g.curvature) f fs)
      | g :: gs => some (foldBest Fork.score g gs) := rfl
  rw [e, h]

/-! Claim theorems. -/

/-- Claim C2 (confirmed): for a non-empty fork list `select_best_fork`
returns the highest-score fork among those passing the strict curvature
gate (first occurrence wins ties); when no fork passes it returns a
minimum-curvature fork of the whole input; it returns `none` exactly on
the empty input; and a fork whose curvature equals `kappa_max` fails the
gate. -/
theorem select_best_fork_spec (forks : List Fork) (kappa : ℚ) :
    (select_best_fork forks kappa = none ↔ forks = []) ∧
    (∀ f : Fork, f.curvature = kappa → ethical_gate f kappa = false) ∧
    (∀ f, select_best_fork forks kappa = some f →
      (forks.filter (fun g => ethical_gate g kappa) ≠ [] →
        f ∈ forks.filter (fun g => ethical_gate g kappa) ∧
        (∀ g ∈ forks.filter (fun g => ethical_gate g kappa), g.score ≤ f.score) ∧
        ∃ l₁ l₂, forks.filter (fun g => ethical_gate g kappa) = l₁ ++ f :: l₂ ∧
          ∀ g ∈ l₁, g.score < f.score) ∧
      (forks.filter (fun g => ethical_gate g kappa) = [] →
        f ∈ forks ∧ ∀ g ∈ forks, f.curvature ≤ g.curvature)) := by
  refine ⟨⟨?_, ?_⟩, ?_, ?_⟩
  · intro h
    cases forks with
    | nil => rfl
    | cons a fs =>
        exfalso
        cases hfil : (a :: fs).filter (fun g => ethical_gate g kappa) with
        | nil => rw [select_best_fork_fallback a fs kappa hfil] at h
                 exact Option.some_ne_none _ h
        | cons g gs => rw [select_best_fork_gated a fs g gs kappa hfil] at h
                       exact Option.some_ne_none _ h
  · rintro rfl; rfl
  · intro f hf
    rw [ethical_gate, hf]
    simp
  · intro f hsel
    cases forks with
    | nil => rw [select_best_fork_nil] at hsel; exact absurd hsel (Option.noConfusion)
    | cons a fs =>
        constructor
        · intro hne
          cases hfil : (a :: fs).filter (fun g => ethical_gate g kappa) with
          | nil => exact absurd hfil hne
          | cons g gs =>
              rw [select_best_fork_gated a fs g gs kappa hfil] at hsel
              have hsel' : foldBest Fork.score g gs = f := Option.some.inj hsel
              refine ⟨?_, ?_, ?_⟩
              · rw [← hsel']
                exact foldBest_mem _ _ _
              · intro g' hg'
                rw [← hsel']
                exact foldBest_le _ _ _ g' hg'
              · obtain ⟨l₁, l₂, heq, hlt⟩ := foldBest_split Fork.score g gs
                refine ⟨l₁, l₂, ?_, ?_⟩
                · rw [heq, hsel']
                · intro z hz
                  rw [← hsel']
                  exact hlt z hz
        · intro hfil
          rw [select_best_fork_fallback a fs kappa hfil] at hsel
          have hsel' : foldBest (fun g => -g.curvature) a fs = f := Option.some.inj hsel
          constructor
          · rw [← hsel']
            exact foldBest_mem _ _ _
          · intro g hg
            have hle := foldBest_le (fun g => -g.curvature) a fs g hg
            rw [hsel'] at hle
            exact neg_le_neg_iff.mp hle

/-- Claim C2 witness: on forks with curvature 0.9 and 0.3 and
`kappa_max = 0.8`, the selected fork is the gate-passing one and no fork
list maps an equal-curvature fork through the gate. -/
theorem select_best_fork_spec_witness :
    ([forkHigh, forkLow].filter (fun g => ethical_gate g (4/5)) ≠ []) ∧
    forkLow ∈ [forkHigh, forkLow].filter (fun g => ethical_gate g (4/5)) :=
  ⟨by norm_num [ethical_gate, forkHigh, forkLow],
   (((select_best_fork_spec [forkHigh, forkLow] (4/5)).2.2 forkLow
      (by rw [select_best_fork_gated forkHigh [forkLow] forkLow [] (4/5)
            (by norm_num [ethical_gate, forkHigh, forkLow])]
          norm_num [foldBest])).1
     (by norm_num [ethical_gate, forkHigh, forkLow])).1⟩

/-- Claim C3 (amended): `validate_fork` always returns a validated record
whose delta has `risk_error = actual.risk − predicted.risk`,
`reward_error = actual.reward − predicted.reward` and
`sentiment_accuracy = 1 − |actual.sentiment_quality − mean(trust,
satisfaction)|`; a missing `risk` or `reward` defaults to the fork's own
prediction (zero error), but a missing `sentiment_quality` defaults to
the constant `0.7`, not to the fork's predicted sentiment. -/
theorem validate_fork_spec (fork : Fork) (ao : ActualOutcome) :
    (validate_fork fork ao).validated = true ∧
    (validate_fork fork ao).delta.map ValidationDelta.risk_error =
      some (ao.risk.getD fork.predictive_vector.risk - fork.predictive_vector.risk) ∧
    (validate_fork fork ao).delta.map ValidationDelta.reward_error =
      some (ao.reward.getD fork.predictive_vector.reward - fork.predictive_vector.reward) ∧
    (validate_fork fork ao).delta.map ValidationDelta.sentiment_accuracy =
      some (1 - |ao.sentiment_quality.getD (7/10) -
        (fork.affective_state.trust + fork.affective_state.satisfaction) / 2|) ∧
    (ao.risk = none →
      (validate_fork fork ao).delta.map ValidationDelta.risk_error = some 0) ∧
    (ao.reward = none →
      (validate_fork fork ao).delta.map ValidationDelta.reward_error = some 0) := by
  refine ⟨rfl, rfl, rfl, rfl, ?_, ?_⟩
  · intro h
    simp [validate_fork, h]
  · intro h
    simp [validate_fork, h]

/-- Claim C3 witness: a wholly-missing outcome yields zero risk and
reward error on a concrete fork. -/
theorem validate_fork_spec_witness :
    (validate_fork forkZeroSent {}).validated = true ∧
    (validate_fork forkZeroSent {}).delta.map ValidationDelta.risk_error = some 0 ∧
    (validate_fork forkZeroSent {}).delta.map ValidationDelta.reward_error = some 0 :=
  ⟨(validate_fork_spec forkZeroSent {}).1,
   (validate_fork_spec forkZeroSent {}).2.2.2.2.1 rfl,
   (validate_fork_spec forkZeroSent {}).2.2.2.2.2 rfl⟩

/-- Claim C3 counterexample: for a fork predicting mean sentiment 0 and
an outcome with every field missing, the code returns sentiment accuracy
`1 − |0.7 − 0| = 0.3`, not the `1` (zero error) the claim's
default-to-own-prediction reading requires. -/
theorem validate_fork_counterexample :
    (validate_fork forkZeroSent {}).delta =
      some { risk_error := 0, reward_error := 0, sentiment_accuracy := 3/10 } ∧
    (validate_fork forkZeroSent {}).delta ≠
      some { risk_error := 0, reward_error := 0, sentiment_accuracy := 1 } := by
  constructor
  · norm_num [validate_fork, forkZeroSent, abs_of_nonneg]
  · norm_num [validate_fork, forkZeroSent, abs_of_nonneg]

/-- Claim C7 (amended): whenever the pre-call total of the three
reasoning weights is positive, `normalize_reasoning_weights` makes them
sum to exactly 1 (hence within 1e-9); likewise for the two retrieval
weights.  When the total is not positive the call is a no-op. -/
theorem normalize_weights_sum (p : CognitiveParameters) :
    (0 < p.deductive_weight + p.inductive_weight + p.abductive_weight →
      (normalize_reasoning_weights p).deductive_weight +
      (normalize_reasoning_weights p).inductive_weight +
      (normalize_reasoning_weights p).abductive_weight = 1) ∧
    (0 < p.vector_search_weight + p.graph_search_weight →
      (normalize_retrieval_weights p).vector_search_weight +
      (normalize_retrieval_weights p).graph_search_weight = 1) := by
  constructor
  · intro h
    have hne : p.deductive_weight + p.inductive_weight + p.abductive_weight ≠ 0 :=
      ne_of_gt h
    rw [normalize_reasoning_weights, if_pos h]
    rw [div_add_div_same, div_add_div_same, div_self hne]
  · intro h
    have hne : p.vector_search_weight + p.graph_search_weight ≠ 0 := ne_of_gt h
    rw [normalize_retrieval_weights, if_pos h]
    rw [div_add_div_same, div_self hne]

/-- Claim C7 witness: the default parameters normalize to weight sums of
exactly 1. -/
theorem normalize_weights_sum_witness :
    ((normalize_reasoning_weights {}).deductive_weight +
     (normalize_reasoning_weights {}).inductive_weight +
     (normalize_reasoning_weights {}).abductive_weight = 1) ∧
    ((normalize_retrieval_weights {}).vector_search_weight +
     (normalize_retrieval_weights {}).graph_search_weight = 1) :=
  ⟨(normalize_weights_sum {}).1 (by norm_num),
   (normalize_weights_sum {}).2 (by norm_num)⟩

/-- Claim C7 counterexample: with all three reasoning weights zero,
normalization is a no-op and the weights sum to 0, not within 1e-9 of 1. -/
theorem normalize_weights_counterexample :
    ¬ |(normalize_reasoning_weights zeroWeights).deductive_weight +
       (normalize_reasoning_weights zeroWeights).inductive_weight +
       (normalize_reasoning_weights zeroWeights).abductive_weight - 1| ≤
      1 / 1000000000 := by
  norm_num [normalize_reasoning_weights, zeroWeights]

theorem observe_foldl (outcomes : List ForkOutcome) (acc : List ℚ) :
    outcomes.foldl (fun acc o => if o.validated then acc ++ [outcomeScore o] else acc) acc =
      acc ++ (outcomes.filter (fun o => o.validated)).map outcomeScore := by
  induction outcomes generalizing acc with
  | nil => simp
  | cons o os ih =>
      by_cases h : o.validated
      · simp [List.foldl_cons, h, List.filter_cons, ih]
      · simp [List.foldl_cons, h, List.filter_cons, ih]

theorem observe_eq (outcomes : List ForkOutcome) (baseline : ℚ) :
    observe outcomes baseline =
      if ((outcomes.filter (fun o => o.validated)).map outcomeScore).isEmpty then baseline
      else ((outcomes.filter (fun o => o.validated)).map outcomeScore).sum /
        ((outcomes.filter (fun o => o.validated)).map outcomeScore).length := by
  cases outcomes with
  | nil => rfl
  | cons o os =>
      rw [observe, observe_foldl]
      simp only [List.isEmpty_cons, List.nil_append, Bool.false_eq_true, if_false]

/-- Claim C5 (confirmed): `observe` returns the mean of
`sentiment_accuracy − 0.5·(|risk_error| + |reward_error|)` over the
validated records, and returns the supplied performance baseline
unchanged when the input is empty or holds no validated record; it is a
total function (never raises). -/
theorem observe_spec (outcomes : List ForkOutcome) (baseline : ℚ) :
    (outcomes.filter (fun o => o.validated) = [] → observe outcomes baseline = baseline) ∧
    (outcomes.filter (fun o => o.validated) ≠ [] →
      observe outcomes baseline =
        ((outcomes.filter (fun o => o.validated)).map outcomeScore).sum /
          ((outcomes.filter (fun o => o.validated)).map outcomeScore).length) := by
  constructor
  · intro h
    rw [observe_eq, h]
    rfl
  · intro h
    rw [observe_eq, if_neg]
    simp only [List.isEmpty_eq_true, List.map_eq_nil_iff]
    exact h

/-- Claim C5 witness: the baseline fallback on an empty input, and the
mean formula on one concrete validated record. -/
theorem observe_spec_witness :
    observe [] (1/2) = (1/2 : ℚ) ∧
    observe sampleOutcomes (1/2) =
      ((sampleOutcomes.filter (fun o => o.validated)).map outcomeScore).sum /
        ((sampleOutcomes.filter (fun o => o.validated)).map outcomeScore).length :=
  ⟨(observe_spec [] (1/2)).1 rfl,
   (observe_spec sampleOutcomes (1/2)).2 (by simp [sampleOutcomes])⟩

/-- Claim C4 (confirmed): `compute_fork_curvature` equals the clamp to
`[0,2]` of the internal tension plus 0.1 times the spec's contextual
divergence (mean consecutive affective distance plus mean consecutive
predictive distance over `[fork] + context_forks`); the divergence is zero
for an empty context, and the result always lies in `[0, 2]`. -/
theorem compute_fork_curvature_spec (fork : Fork) (context_forks : List Fork) :
    compute_fork_curvature fork context_forks =
      clampVal (internalTension fork +
        specContextualDivergence fork context_forks * (1/10)) 0 2 ∧
    specContextualDivergence fork [] = 0 ∧
    0 ≤ compute_fork_curvature fork context_forks ∧
    compute_fork_curvature fork context_forks ≤ 2 := by
  have hdiv0 : specContextualDivergence fork [] = 0 := by
    simp [specContextualDivergence]
  refine ⟨?_, hdiv0, ?_, ?_⟩
  · cases context_forks with
    | nil =>
        rw [hdiv0]
        simp [compute_fork_curvature]
    | cons c cs =>
        have h2 : ¬ (fork :: c :: cs).length < 2 := by
          simp only [List.length_cons]
          omega
        simp only [compute_fork_curvature, specContextualDivergence,
          compute_affective_gradient, compute_predictive_gradient,
          List.isEmpty_cons, Bool.false_eq_true, if_false, if_neg h2,
          List.tail_cons, List.zip_cons_cons, List.map_cons]
  · exact le_clampVal _ 0 2 (by norm_num)
  · exact clampVal_le _ 0 2

theorem evolve_stack (s : InfiniGenState) (o : List ForkOutcome)
    (names : List ParamName) (noise imp : ParamName → ℚ) :
    (evolve s o names noise imp).rollback_stack =
      if 10 < (s.rollback_stack ++ [s.params]).length then
        (s.rollback_stack ++ [s.params]).drop 1
      else s.rollback_stack ++ [s.params] := by
  cases h : (mutationLoop s.params s.kappa_max (s.generation + 1)
      (hypothesize s.params names noise imp)).1.1 with
  | none => simp only [evolve, h]
  | some c => simp only [evolve, h]

theorem evolve_kappa (s : InfiniGenState) (o : List ForkOutcome)
    (names : List ParamName) (noise imp : ParamName → ℚ) :
    (evolve s o names noise imp).kappa_max = s.kappa_max := by
  cases h : (mutationLoop s.params s.kappa_max (s.generation + 1)
      (hypothesize s.params names noise imp)).1.1 with
  | none => simp only [evolve, h]
  | some c => simp only [evolve, h]

theorem evolve_params_cases (s : InfiniGenState) (o : List ForkOutcome)
    (names : List ParamName) (noise imp : ParamName → ℚ) :
    ((mutationLoop s.params s.kappa_max (s.generation + 1)
        (hypothesize s.params names noise imp)).1.1 = none ∧
      (evolve s o names noise imp).params = s.params) ∨
    (∃ c, (mutationLoop s.params s.kappa_max (s.generation + 1)
        (hypothesize s.params names noise imp)).1.1 = some c ∧
      (evolve s o names noise imp).params =
        normalize_retrieval_weights
          (normalize_reasoning_weights (setParam s.params c.1 c.2.1))) := by
  cases h : (mutationLoop s.params s.kappa_max (s.generation + 1)
      (hypothesize s.params names noise imp)).1.1 with
  | none =>
      left
      refine ⟨rfl, ?_⟩
      simp only [evolve, h]
  | some c =>
      right
      refine ⟨c, rfl, ?_⟩
      simp only [evolve, h]

theorem mutationFold_some (p : CognitiveParameters) (k : ℚ) (gen : ℕ)
    (cands : List Candidate) :
    ∀ (acc : (Option Candidate × ℚ) × List EvolutionRecord) (c : Candidate),
      (cands.foldl (mutationStep p k gen) acc).1.1 = some c →
      acc.1.1 = some c ∨
        (c ∈ cands ∧ compute_mutation_curvature (setParam p c.1 c.2.1) < k) := by
  induction cands with
  | nil => exact fun acc c h => Or.inl h
  | cons d rest ih =>
      intro acc c h
      rw [List.foldl_cons] at h
      rcases ih (mutationStep p k gen acc d) c h with h' | h'
      · unfold mutationStep at h'
        by_cases hg : k ≤ compute_mutation_curvature (setParam p d.1 d.2.1)
        · rw [if_pos hg] at h'
          exact Or.inl h'
        · rw [if_neg hg] at h'
          by_cases hb : acc.1.2 < d.2.2
          · rw [if_pos hb] at h'
            have hd : some d = some c := h'
            obtain rfl := Option.some.inj hd
            exact Or.inr ⟨List.mem_cons_self _ _, lt_of_not_le hg⟩
          · rw [if_neg hb] at h'
            exact Or.inl h'
      · exact Or.inr ⟨List.mem_cons_of_mem _ h'.1, h'.2⟩

theorem mutationLoop_some (p : CognitiveParameters) (k : ℚ) (gen : ℕ)
    (cands : List Candidate) (c : Candidate)
    (h : (mutationLoop p k gen cands).1.1 = some c) :
    c ∈ cands ∧ compute_mutation_curvature (setParam p c.1 c.2.1) < k := by
  rcases mutationFold_some p k gen cands ((none, 0), []) c h with h' | h'
  · exact absurd h' (by simp)
  · exact h'

theorem evolve_stack_getLast (s : InfiniGenState) (o : List ForkOutcome)
    (names : List ParamName) (noise imp : ParamName → ℚ) :
    (evolve s o names noise imp).rollback_stack.getLast? = some s.params := by
  rw [evolve_stack]
  split
  · rename_i h
    cases hl : s.rollback_stack with
    | nil =>
        rw [hl] at h
        simp at h
    | cons a l' =>
        simp only [List.cons_append, List.drop_one, List.tail_cons]
        exact List.getLast?_concat _
  · exact List.getLast?_concat _

theorem hypothesize_names (p : CognitiveParameters) (names : List ParamName)
    (noise imp : ParamName → ℚ) (c : Candidate)
    (hc : c ∈ hypothesize p names noise imp) : c.1 ∈ names := by
  rw [hypothesize, List.mem_map] at hc
  obtain ⟨n, hn, rfl⟩ := hc
  by_cases hint : isIntParam n = true
  · rw [if_pos hint]
    exact hn
  · rw [if_neg hint]
    exact hn

theorem setParam_kappa (p : CognitiveParameters) (n : ParamName) (v : ℚ)
    (h : n ≠ ParamName.kappa_max) : (setParam p n v).kappa_max = p.kappa_max := by
  cases n <;> first | rfl | exact absurd rfl h

theorem normalize_reasoning_kappa (p : CognitiveParameters) :
    (normalize_reasoning_weights p).kappa_max = p.kappa_max := by
  rw [normalize_reasoning_weights]
  split <;> rfl

theorem normalize_retrieval_kappa (p : CognitiveParameters) :
    (normalize_retrieval_weights p).kappa_max = p.kappa_max := by
  rw [normalize_retrieval_weights]
  split <;> rfl

theorem max_one_step (cur d : ℚ) (hd : d = -1 ∨ d = 0 ∨ d = 1) (hcur : 0 ≤ cur) :
    |max 1 (cur + d) - cur| ≤ 1 := by
  rcases hd with rfl | rfl | rfl
  · rcases le_total (cur + -1) 1 with h | h
    · rw [max_eq_left h, abs_le]
      constructor <;> linarith
    · rw [max_eq_right h, abs_le]
      constructor <;> linarith
  · rcases le_total (cur + 0) 1 with h | h
    · rw [max_eq_left h, abs_le]
      constructor <;> linarith
    · rw [max_eq_right h, abs_le]
      constructor <;> linarith
  · rw [max_eq_right (by linarith), abs_le]
    constructor <;> linarith

/-- Claim C6 (confirmed): calling `evolve` and then `rollback` restores
the live parameter set to exactly the pre-`evolve` values (the pushed
snapshot, returned verbatim), and `rollback` on an empty stack changes no
state and returns no result. -/
theorem evolve_rollback_restores (s : InfiniGenState) (o : List ForkOutcome)
    (names : List ParamName) (noise imp : ParamName → ℚ) :
    ((rollback (evolve s o names noise imp)).1.params = s.params ∧
     (rollback (evolve s o names noise imp)).2 = some s.params) ∧
    ∀ t : InfiniGenState, t.rollback_stack = [] → rollback t = (t, none) := by
  constructor
  · have h := evolve_stack_getLast s o names noise imp
    unfold rollback
    rw [h]
    exact ⟨rfl, rfl⟩
  · intro t ht
    simp only [rollback, ht, List.getLast?_nil]

/-- Claim C6 witness: evolve-then-rollback on a freshly constructed
controller restores the default parameters, and rollback of the fresh
(empty-stack) controller is a no-op. -/
theorem evolve_rollback_restores_witness :
    (rollback (evolve (initInfiniGen {} (4/5)) [] [] (fun _ => 0) (fun _ => 0))).1.params =
      (initInfiniGen {} (4/5)).params ∧
    rollback (initInfiniGen {} (4/5)) = (initInfiniGen {} (4/5), none) :=
  ⟨((evolve_rollback_restores (initInfiniGen {} (4/5)) [] [] (fun _ => 0) (fun _ => 0)).1).1,
   (evolve_rollback_restores (initInfiniGen {} (4/5)) [] [] (fun _ => 0) (fun _ => 0)).2
     (initInfiniGen {} (4/5)) rfl⟩

theorem evolve_stack_le (s : InfiniGenState) (o : List ForkOutcome)
    (names : List ParamName) (noise imp : ParamName → ℚ)
    (h : s.rollback_stack.length ≤ 10) :
    (evolve s o names noise imp).rollback_stack.length ≤ 10 := by
  rw [evolve_stack]
  split
  · simp only [List.length_drop, List.length_append, List.length_singleton]
    omega
  · rename_i hle
    simp only [not_lt, List.length_append, List.length_singleton] at hle
    simp only [List.length_append, List.length_singleton]
    omega

theorem rollback_stack_le (s : InfiniGenState)
    (h : s.rollback_stack.length ≤ 10) :
    (rollback s).1.rollback_stack.length ≤ 10 := by
  unfold rollback
  cases hg : s.rollback_stack.getLast? with
  | none => exact h
  | some p =>
      show s.rollback_stack.dropLast.length ≤ 10
      rw [List.length_dropLast]
      omega

theorem runSteps_stack_le (steps : List ControllerStep) :
    ∀ s : InfiniGenState, s.rollback_stack.length ≤ 10 →
      (runSteps s steps).rollback_stack.length ≤ 10 := by
  induction steps with
  | nil => exact fun s h => h
  | cons st rest ih =>
      intro s h
      cases st with
      | evolveStep o n ns im => exact ih _ (evolve_stack_le s o n ns im h)
      | rollbackStep => exact ih _ (rollback_stack_le s h)

/-- Claim C8 (confirmed): from a freshly constructed controller, any
sequence of `evolve`/`rollback` calls keeps the rollback stack at ≤ 10
snapshots, and a push onto a full (10-entry) stack evicts the oldest
snapshot first. -/
theorem rollback_stack_bounded (params₀ : CognitiveParameters) (k : ℚ)
    (steps : List ControllerStep) :
    (runSteps (initInfiniGen params₀ k) steps).rollback_stack.length ≤ 10 ∧
    ∀ (s : InfiniGenState) (o : List ForkOutcome) (names : List ParamName)
      (noise imp : ParamName → ℚ), s.rollback_stack.length = 10 →
      (evolve s o names noise imp).rollback_stack =
        s.rollback_stack.tail ++ [s.params] := by
  constructor
  · exact runSteps_stack_le steps _ (by simp [initInfiniGen])
  · intro s o names noise imp h10
    rw [evolve_stack, if_pos]
    · cases hl : s.rollback_stack with
      | nil =>
          rw [hl] at h10
          simp at h10
      | cons a l' =>
          simp [List.drop_one]
    · simp only [List.length_append, List.length_singleton, h10]
      omega

/-- Claim C8 witness: one evolve step from a fresh controller keeps the
stack bound, and an evolve on a concrete full stack evicts its head. -/
theorem rollback_stack_bounded_witness :
    (runSteps (initInfiniGen {} (4/5))
      [ControllerStep.evolveStep [] [] (fun _ => 0) (fun _ => 0)]).rollback_stack.length ≤ 10 ∧
    (evolve tenStackState [] [] (fun _ => 0) (fun _ => 0)).rollback_stack =
      tenStackState.rollback_stack.tail ++ [tenStackState.params] :=
  ⟨(rollback_stack_bounded {} (4/5)
      [ControllerStep.evolveStep [] [] (fun _ => 0) (fun _ => 0)]).1,
   (rollback_stack_bounded {} (4/5) []).2 tenStackState [] [] (fun _ => 0) (fun _ => 0)
     (by simp [tenStackState])⟩

/-- Claim C1 (amended): `evolve` deploys only candidates whose trial
configuration (the live parameters with the single field mutated, before
weight re-normalization) has projected curvature strictly below
`kappa_max` — rejected candidates are never applied, even transiently —
and the deployed live parameters are exactly that trial configuration
after re-normalizing the reasoning and retrieval weight groups.  The
post-normalization configuration itself is not re-checked (see the
counterexample). -/
theorem evolve_deploys_only_gated (s : InfiniGenState) (o : List ForkOutcome)
    (names : List ParamName) (noise imp : ParamName → ℚ) (c : Candidate)
    (hc : (mutationLoop s.params s.kappa_max (s.generation + 1)
            (hypothesize s.params names noise imp)).1.1 = some c) :
    compute_mutation_curvature (setParam s.params c.1 c.2.1) < s.kappa_max ∧
    (evolve s o names noise imp).params =
      normalize_retrieval_weights
        (normalize_reasoning_weights (setParam s.params c.1 c.2.1)) := by
  refine ⟨(mutationLoop_some _ _ _ _ _ hc).2, ?_⟩
  rcases evolve_params_cases s o names noise imp with ⟨hn, _⟩ | ⟨d, hd, hp⟩
  · rw [hn] at hc
    exact absurd hc (Option.noConfusion)
  · rw [hd] at hc
    obtain rfl := Option.some.inj hc
    exact hp

/-- Claim C1 witness: from a fresh controller, a gate-passing `alpha`
candidate is deployed and its trial configuration satisfies the
curvature bound. -/
theorem evolve_deploys_only_gated_witness :
    compute_mutation_curvature
      (setParam (initInfiniGen {} (4/5)).params ParamName.alpha (1/100)) <
      (initInfiniGen {} (4/5)).kappa_max :=
  (evolve_deploys_only_gated (initInfiniGen {} (4/5)) [] [ParamName.alpha]
    (fun _ => 0) (fun _ => 1/20) (ParamName.alpha, 1/100, 1/20)
    (by norm_num [mutationLoop, mutationStep, hypothesize, isIntParam, getParam,
      setParam, compute_mutation_curvature, clampVal, max_def, min_def,
      initInfiniGen])).1

/-- Claim C1 counterexample: from `preEvolveParams` with the default
`kappa_max = 0.8`, `evolve` deploys a gate-passing mutation of
`inductive_weight`, but the post-deployment weight re-normalization
drives the projected curvature of the live parameter set to
`57/67 ≈ 0.851 ≥ 0.8`. -/
theorem evolve_curvature_counterexample :
    evolvedState.kappa_max = 4/5 ∧
    ¬ compute_mutation_curvature evolvedState.params < evolvedState.kappa_max := by
  constructor
  · rw [evolvedState, evolve_kappa]
    rfl
  · norm_num [evolvedState, evolve, initInfiniGen, mutationLoop, mutationStep,
      hypothesize, isIntParam, getParam, setParam, compute_mutation_curvature,
      clampVal, max_def, min_def, normalize_reasoning_weights,
      normalize_retrieval_weights, observe, outcomeScore, preEvolveParams]

/-- Claim C9 (amended): injecting the random draws with their numpy
supports, every `hypothesize` candidate mutates a whitelist parameter, at
most 5 candidates are produced, float candidates are clamped into
`[0.01, 1.0]` with expected improvement in `[0, 0.1]`, and integer
candidates are floored at 1 with expected improvement in `[0, 0.05]` and
move by at most 1 *provided the current value is non-negative* (a
negative current integer value makes the floor at 1 jump further — see
the counterexample). -/
theorem hypothesize_spec (p : CognitiveParameters) (names : List ParamName)
    (noise imp : ParamName → ℚ)
    (hnames : ∀ n ∈ names, n ∈ mutableParams)
    (hlen : names.length ≤ 5)
    (hnoise : ∀ n, isIntParam n = true → noise n = -1 ∨ noise n = 0 ∨ noise n = 1)
    (himp0 : ∀ n, 0 ≤ imp n)
    (himpF : ∀ n, isIntParam n = false → imp n ≤ 1/10)
    (himpI : ∀ n, isIntParam n = true → imp n ≤ 1/20) :
    (hypothesize p names noise imp).length ≤ 5 ∧
    ∀ c ∈ hypothesize p names noise imp,
      c.1 ∈ mutableParams ∧ 0 ≤ c.2.2 ∧
      (isIntParam c.1 = false →
        1/100 ≤ c.2.1 ∧ c.2.1 ≤ 1 ∧ c.2.2 ≤ 1/10) ∧
      (isIntParam c.1 = true →
        1 ≤ c.2.1 ∧ c.2.2 ≤ 1/20 ∧
        (0 ≤ getParam p c.1 → |c.2.1 - getParam p c.1| ≤ 1)) := by
  constructor
  · rw [hypothesize, List.length_map]
    exact hlen
  · intro c hc
    rw [hypothesize, List.mem_map] at hc
    obtain ⟨n, hn, hceq⟩ := hc
    subst hceq
    by_cases hint : isIntParam n = true
    · rw [if_pos hint]
      refine ⟨hnames n hn, himp0 n, ?_, ?_⟩
      · intro hF
        rw [hint] at hF
        exact absurd hF (by simp)
      · intro _
        exact ⟨le_max_left 1 _, himpI n hint,
          fun hcur => max_one_step _ _ (hnoise n hint) hcur⟩
    · rw [if_neg hint]
      refine ⟨hnames n hn, himp0 n, ?_, ?_⟩
      · intro _
        exact ⟨le_clampVal _ _ _ (by norm_num), clampVal_le _ _ _,
          himpF n (Bool.not_eq_true _ ▸ hint)⟩
      · intro hT
        exact absurd hT hint

/-- Claim C9 witness: a single float-parameter draw obeys all the bounds. -/
theorem hypothesize_spec_witness :
    (hypothesize {} [ParamName.alpha] (fun _ => 0) (fun _ => 0)).length ≤ 5 :=
  (hypothesize_spec {} [ParamName.alpha] (fun _ => 0) (fun _ => 0)
    (by decide) (by decide) (fun n _ => Or.inr (Or.inl rfl)) (fun n => le_refl 0)
    (fun n _ => by norm_num) (fun n _ => by norm_num)).1

/-- Claim C9 counterexample: with `fork_depth = -1`, the draw `+1`
produces the candidate value `max(1, 0) = 1`, which differs from the
current value by 2 > 1. -/
theorem hypothesize_int_step_counterexample :
    (ParamName.fork_depth, (1 : ℚ), (0 : ℚ)) ∈
      hypothesize negDepthParams [ParamName.fork_depth] (fun _ => 1) (fun _ => 0) ∧
    ¬ |(1 : ℚ) - getParam negDepthParams ParamName.fork_depth| ≤ 1 := by
  constructor
  · norm_num [hypothesize, negDepthParams, getParam, isIntParam, max_def]
  · norm_num [negDepthParams, getParam, abs_of_nonneg]

/-- Claim C10 (confirmed): `kappa_max` is absent from the mutable
whitelist, and `evolve` (whose candidates all name whitelist parameters)
changes neither the controller's `kappa_max` threshold nor the
`kappa_max` field of the live parameters; deployment and weight
re-normalization leave both untouched. -/
theorem evolve_preserves_kappa (s : InfiniGenState) (o : List ForkOutcome)
    (names : List ParamName) (noise imp : ParamName → ℚ)
    (hnames : ∀ n ∈ names, n ∈ mutableParams) :
    ParamName.kappa_max ∉ mutableParams ∧
    (evolve s o names noise imp).params.kappa_max = s.params.kappa_max ∧
    (evolve s o names noise imp).kappa_max = s.kappa_max := by
  refine ⟨by decide, ?_, evolve_kappa s o names noise imp⟩
  rcases evolve_params_cases s o names noise imp with ⟨_, hp⟩ | ⟨c, hc, hp⟩
  · rw [hp]
  · rw [hp, normalize_retrieval_kappa, normalize_reasoning_kappa]
    apply setParam_kappa
    have h1 : c ∈ hypothesize s.params names noise imp :=
      (mutationLoop_some _ _ _ _ _ hc).1
    have h2 : c.1 ∈ mutableParams := hnames _ (hypothesize_names _ _ _ _ _ h1)
    intro he
    rw [he] at h2
    exact absurd h2 (by decide)

/-- Claim C10 witness: a concrete evolve call with a whitelist candidate
leaves both `kappa_max` values unchanged. -/
theorem evolve_preserves_kappa_witness :
    ParamName.kappa_max ∉ mutableParams ∧
    (evolve (initInfiniGen {} (4/5)) [] [ParamName.alpha] (fun _ => 0)
      (fun _ => 1/20)).kappa_max = (initInfiniGen {} (4/5)).kappa_max :=
  ⟨(evolve_preserves_kappa (initInfiniGen {} (4/5)) [] [ParamName.alpha] (fun _ => 0)
      (fun _ => 1/20) (by decide)).1,
   (evolve_preserves_kappa (initInfiniGen {} (4/5)) [] [ParamName.alpha] (fun _ => 0)
      (fun _ => 1/20) (by decide)).2.2⟩

end NO3SYS
